import Mathlib

/-!
Shallow embedding of the docuquery document retrieval and indexing subsystem
(backend/services: pdf_processor.py, embedding_service.py, llm_service.py,
multi_doc_service.py), together with proofs of the specification claims.

Modelling conventions:
* Python strings are Lean `String`s; the Python string primitives used by the
  code (`str.split()`, `str.strip()`, `str.lower()`, `' '.join`, slicing,
  substring `in`) are re-implemented below by structural recursion over the
  character list, so that every definition evaluates inside the kernel.
* Machine floats (embedding coordinates, similarity scores) are modelled as
  rationals; the numeric computations owned by external collaborators
  (sentence-transformers, faiss, numpy) are abstracted as explicit function
  parameters, exactly at the call boundaries the code uses.
* Python exceptions are modelled with `Except`/`Option`; a `try`/`except`
  handler becomes a `match` on the outcome of the fallible call.
-/

namespace DocuQuery

/-- Auxiliary worker for `pyWords`: walks the character list accumulating the
current word (in reverse). -/
def wordsAux : List Char → List Char → List String
  | [], cur => if cur.isEmpty then [] else [String.mk cur.reverse]
  | c :: cs, cur =>
    if c.isWhitespace then
      if cur.isEmpty then wordsAux cs [] else String.mk cur.reverse :: wordsAux cs []
    else wordsAux cs (c :: cur)

/-- Python `text.split()` (no argument): the maximal whitespace-free runs of
the string, with no empty words. -/
def pyWords (s : String) : List String := wordsAux s.data []

/-- Python `s.strip()`: remove leading and trailing whitespace. -/
def pyStrip (s : String) : String :=
  String.mk (((s.data.dropWhile Char.isWhitespace).reverse.dropWhile Char.isWhitespace).reverse)

/-- Python `s.lower()` (restricted to the ASCII case mapping). -/
def pyLower (s : String) : String := String.mk (s.data.map Char.toLower)

/-- Python `sep.join(parts)`. -/
def joinWith (sep : String) : List String → String
  | [] => ""
  | [w] => w
  | w :: ws => w ++ sep ++ joinWith sep ws

/-- Python `s[:n]`: the first `n` characters of a string. -/
def pyTake (s : String) (n : Nat) : String := String.mk (s.data.take n)

/-- Python `sub in s` for strings: substring containment. -/
def pyIn (sub s : String) : Bool :=
  s.data.tails.any (fun t => sub.data.isPrefixOf t)

/-! ## PDFProcessor (pdf_processor.py)

`PDFProcessor.__init__(chunk_size, overlap)` stores the two integers without
any validation.  `chunk_text` is embedded below with the configuration passed
explicitly.  The Python loop

    for i in range(0, len(words), self.chunk_size - self.overlap): ...

is embedded as `chunkLoop` by structural recursion on a fuel argument;
`chunk_text` supplies `fuel = words.length`, which is enough for the loop to
run to its `break` (each iteration advances `i` by at least one and the loop
breaks as soon as `i + chunk_size >= len(words)`).  A zero range step raises
`ValueError` in Python; a negative step makes the range empty, so the loop
body never runs. -/

/-- One window of the chunking loop: `' '.join(words[i:i+cs])`. -/
def windowText (words : List String) (cs i : Nat) : String :=
  joinWith " " ((words.drop i).take cs)

/-- The body of the chunking loop of `PDFProcessor.chunk_text`: at index `i`,
take the window `words[i:i+cs]`, join and strip it, keep it when its length
exceeds 50 characters, and stop after the window that reaches the end of the
word list. -/
def chunkLoop (words : List String) (cs step : Nat) : Nat → Nat → List String
  | 0, _ => []
  | fuel + 1, i =>
    let t := pyStrip (windowText words cs i)
    let keep := if 50 < t.length then [t] else []
    if words.length ≤ i + cs then keep
    else keep ++ chunkLoop words cs step fuel (i + step)

/-- `PDFProcessor.chunk_text(text)` with configuration `(cs, ov)` =
`(chunk_size, overlap)`.  Returns `Except.error` when the Python code would
raise (the zero range step of `overlap = chunk_size` on a text longer than
`chunk_size` words). -/
def chunk_text (cs ov : Nat) (text : String) : Except String (List String) :=
  let words := pyWords text
  if words.length ≤ cs then
    if pyStrip text ≠ "" then .ok [text] else .ok []
  else if ov < cs then
    .ok (chunkLoop words cs (cs - ov) words.length 0)
  else if cs = ov then
    .error "ValueError: range() arg 3 must not be zero"
  else
    .ok []

/-! ## EmbeddingService (embedding_service.py)

The in-memory state of an `EmbeddingService` is its `chunks` list, its
optional faiss `index` and the `index_loaded` flag.  The faiss flat
inner-product index is external; for `search_similar` it is modelled as its
vector count `ntotal` bundled with an opaque search function returning
`(score, position)` rows, exactly the data `index.search` hands back
(positions are `Int` because faiss pads missing neighbours with `-1`). -/

/-- Model of a faiss `IndexFlatIP` handle as consumed by `search_similar`:
its `ntotal` and its `search` behaviour. -/
structure FaissIP where
  ntotal : Nat
  searchFn : List Rat → Nat → List (Rat × Int)

/-- The mutable fields of `EmbeddingService` touched by `search_similar`,
`load_index` and `clear_index`, generic over the representation `ι` of the
loaded faiss index. -/
structure EmbState (ι : Type) where
  chunks : List String
  index : Option ι
  index_loaded : Bool
deriving DecidableEq

/-- `EmbeddingService.search_similar(query, k)`.  The query embedding call
(`create_embeddings([query])`) is the external model call and is passed as
`embed`; `none` models it raising, which `search_similar` re-raises as its
own exception. -/
def search_similar (embed : String → Option (List Rat)) (s : EmbState FaissIP)
    (query : String) (k : Nat) : Except String (List (String × Rat)) :=
  match s.index with
  | none => .error "Vector index not built. Call build_vector_index() first."
  | some ix =>
    if s.index_loaded = false then
      .error "Vector index not built. Call build_vector_index() first."
    else
      let k := if s.chunks.length < k then s.chunks.length else k
      match embed query with
      | none => .error "Failed to search similar chunks: embedding error"
      | some qv =>
        .ok ((ix.searchFn qv k).filterMap (fun p =>
          if 0 ≤ p.2 then (s.chunks.get? p.2.toNat).map (fun c => (c, p.1)) else none))

/-- State of one on-disk artifact: absent, present but unreadable (reading it
raises), or present with content `a`. -/
inductive FileState (α : Type) where
  | absent
  | unreadable
  | ok (a : α)
deriving DecidableEq

/-- `os.path.exists` on an artifact. -/
def FileState.toExists : FileState α → Bool
  | .absent => false
  | _ => true

/-- Whether reading the artifact raises. -/
def FileState.toUnreadable : FileState α → Bool
  | .unreadable => true
  | _ => false

/-- The three artifacts `<base>.index`, `<base>.chunks`, `<base>.meta` of a
saved index, generic over the deserialized index representation `ι` (the
`.meta` content is only logged, so its payload is irrelevant). -/
structure FS (ι : Type) where
  indexFile : FileState ι
  chunksFile : FileState (List String)
  metaFile : FileState Unit
deriving DecidableEq

/-- The state written by the `except` handler of `load_index`:
`self.index = None; self.chunks = []; self.index_loaded = False`. -/
def clearedState (ι : Type) : EmbState ι := ⟨[], none, false⟩

/-- `EmbeddingService.load_index(filename)` over the artifact states `fs`,
mutating the service state `s` and returning the boolean result.  The
early-return when `.index` or `.chunks` does not exist leaves `s` untouched;
any read that raises lands in the `except` handler, which resets the state to
`clearedState`. -/
def load_index (fs : FS ι) (s : EmbState ι) : EmbState ι × Bool :=
  if fs.indexFile.toExists && fs.chunksFile.toExists then
    match fs.indexFile with
    | .ok ix =>
      match fs.chunksFile with
      | .ok cs =>
        match fs.metaFile with
        | .unreadable => (clearedState ι, false)
        | _ => (⟨cs, some ix, true⟩, true)
      | _ => (clearedState ι, false)
    | _ => (clearedState ι, false)
  else (s, false)

/-! ## LLMService (llm_service.py)

`generate_answer` builds a context and prompt, calls Gemini, and on any
exception falls back to `_fallback_answer`.  The external synthesis call is a
parameter `provider : String → Except String String` (its `error` case covers
every failure mode `_query_gemini` raises on: API error, safety block, empty
or missing candidates).  Python's `f"{x:.2f}"`/`f"{x:.1f}"` float rendering is
abstracted as the formatting parameters `fmt2`/`fmt1`; the scores themselves
are rationals and are never branched on along these paths. -/

/-- Result dictionary of `LLMService.generate_answer`. -/
structure LLMResult where
  answer : String
  context_used : Nat
  provider : String
  model : String
deriving DecidableEq

/-- `LLMService._build_context`: the numbered, relevance-tagged rendering of
the top 5 chunks. -/
def build_context (fmt2 : Rat → String) (chunks : List (String × Rat)) : String :=
  if chunks.isEmpty then "No relevant context found."
  else
    joinWith "\n\n" ((chunks.take 5).enum.map (fun p =>
      "Context " ++ toString (p.1 + 1) ++ " (Relevance: " ++ fmt2 p.2.2 ++ "):\n"
        ++ pyStrip p.2.1))

/-- `LLMService._build_prompt`: the fixed instruction template around the
context. -/
def build_prompt (query context document_name : String) : String :=
  "You are an intelligent document assistant. Answer the user's question based ONLY on the provided context from the document.\n\n"
    ++ "Document: " ++ (if document_name ≠ "" then document_name else "User's document") ++ "\n\n"
    ++ "Context from the document:\n" ++ context ++ "\n\n"
    ++ "User Question: " ++ query ++ "\n\n"
    ++ "Instructions:\n"
    ++ "1. Answer the question directly and comprehensively using ONLY the provided context\n"
    ++ "2. If the context doesn't contain enough information, clearly state what's missing\n"
    ++ "3. Be specific and cite relevant details from the context\n"
    ++ "4. Use a helpful, professional tone\n"
    ++ "5. If asked for a summary, provide a well-structured overview\n"
    ++ "6. If multiple context sections are relevant, synthesize them coherently\n"
    ++ "7. Don't make up information not present in the context\n"
    ++ "8. Keep your response concise but complete\n"
    ++ "9. Format your response in a clear, readable way\n\n"
    ++ "Answer:"

/-- The `answer += f"**Section {i+1}** (Relevance: {score*100:.1f}%)\n{text}\n\n"`
accumulation loop of `_fallback_answer`, over `enumerate(context_chunks[:3])`
starting at index `i`. -/
def fallbackSections (fmt1 : Rat → String) : Nat → List (String × Rat) → String
  | _, [] => ""
  | i, tc :: rest =>
    "**Section " ++ toString (i + 1) ++ "** (Relevance: " ++ fmt1 (tc.2 * 100)
      ++ "%)\n" ++ tc.1 ++ "\n\n" ++ fallbackSections fmt1 (i + 1) rest

/-- `LLMService._fallback_answer(query, context_chunks)`. -/
def fallback_answer (fmt1 : Rat → String) (query : String)
    (context_chunks : List (String × Rat)) : LLMResult :=
  let answer :=
    if context_chunks.isEmpty then
      "I couldn't find relevant information in the document to answer your question. Please try rephrasing your question or ask about different topics covered in the document."
    else
      "I encountered an issue generating a response, but here are the most relevant sections from the document for your question '"
        ++ query ++ "':\n\n" ++ fallbackSections fmt1 0 (context_chunks.take 3)
  ⟨answer, context_chunks.length, "fallback", "none"⟩

/-- `LLMService.generate_answer(query, context_chunks, document_name)` with
the external Gemini call abstracted as `provider`. -/
def generate_answer (provider : String → Except String String)
    (fmt2 fmt1 : Rat → String) (query : String)
    (context_chunks : List (String × Rat)) (document_name : String) : LLMResult :=
  match provider (build_prompt query (build_context fmt2 context_chunks) document_name) with
  | .ok response => ⟨response, context_chunks.length, "gemini", "gemini-1.5-flash"⟩
  | .error _ => fallback_answer fmt1 query context_chunks

/-- `LLMService.classify_query_type(query)`: the keyword-membership
classifier, transcribed branch by branch. -/
def classify_query_type (query : String) : String :=
  let ql := pyLower query
  if ["summary", "summarize", "overview", "main points", "key points"].any (fun w => pyIn w ql) then
    "summary"
  else if ["what is", "define", "explain", "describe", "tell me about"].any (fun w => pyIn w ql) then
    "explanation"
  else if ["how", "process", "steps", "method", "procedure"].any (fun w => pyIn w ql) then
    "process"
  else if ["why", "reason", "cause", "because", "rationale"].any (fun w => pyIn w ql) then
    "reasoning"
  else if ["when", "date", "time", "schedule", "timeline"].any (fun w => pyIn w ql) then
    "temporal"
  else if ["who", "person", "people", "author", "name"].any (fun w => pyIn w ql) then
    "entity"
  else if ["compare", "difference", "versus", "vs", "contrast"].any (fun w => pyIn w ql) then
    "comparison"
  else
    "general"

/-- The category/keyword table in the precedence order stated by the spec
(summary, explanation, process, reasoning, temporal, entity, comparison). -/
def categoryTable : List (String × List String) :=
  [("summary", ["summary", "summarize", "overview", "main points", "key points"]),
   ("explanation", ["what is", "define", "explain", "describe", "tell me about"]),
   ("process", ["how", "process", "steps", "method", "procedure"]),
   ("reasoning", ["why", "reason", "cause", "because", "rationale"]),
   ("temporal", ["when", "date", "time", "schedule", "timeline"]),
   ("entity", ["who", "person", "people", "author", "name"]),
   ("comparison", ["compare", "difference", "versus", "vs", "contrast"])]

/-- First category of a table whose keyword set matches the query, else
`"general"`. -/
def firstMatching (ql : String) : List (String × List String) → String
  | [] => "general"
  | cat :: rest => if cat.2.any (fun w => pyIn w ql) then cat.1 else firstMatching ql rest

/-- The classifier as the spec words it (4.6): a first-match scan of the
fixed-precedence category table over the lower-cased query. -/
def specClassify (query : String) : String :=
  firstMatching (pyLower query) categoryTable

/-! ## MultiDocumentService (multi_doc_service.py)

State: the insertion-ordered `document_indices` dict (modelled as an
association list with Python-dict update semantics: overwriting a present key
keeps its position, a new key is appended), plus the derived master index.
Embedding vectors are opaque data (`Vec`); `faiss.normalize_L2` and the
numeric searches are abstracted at their call boundaries.  The per-document
faiss index built in `add_document` carries no information beyond the stored
normalized embeddings, so it is not duplicated in the model. -/

/-- An embedding vector (row of a numpy array), coordinates as rationals. -/
abbrev Vec := List Rat

/-- One value of the `document_indices` dict: the fields of
`{"index", "chunks", "embeddings", "metadata", "added_at"}` that the modelled
operations read (`metadata["original_filename"]` is `name`). -/
structure DocEntry where
  chunks : List String
  embeddings : List Vec
  name : String
deriving DecidableEq

/-- One element of `master_chunks`: a chunk with document attribution. -/
structure MasterChunk where
  text : String
  file_id : String
  document_name : String
  local_chunk_id : Nat
deriving DecidableEq

/-- The mutable state of `MultiDocumentService`. -/
structure MDState where
  document_indices : List (String × DocEntry)
  master_index : Option (List Vec)
  master_chunks : List MasterChunk
  chunk_to_doc_mapping : List (String × Nat)
deriving DecidableEq

/-- The state built by `__init__` / `clear_collection`. -/
def initState : MDState := ⟨[], none, [], []⟩

/-- Python dict update `d[k] = v`: overwrite in place if the key is present,
append otherwise. -/
def dictInsert (k : String) (v : DocEntry) :
    List (String × DocEntry) → List (String × DocEntry)
  | [] => [(k, v)]
  | p :: rest => if p.1 = k then (k, v) :: rest else p :: dictInsert k v rest

/-- Python `del d[k]`. -/
def dictRemove (k : String) (d : List (String × DocEntry)) :
    List (String × DocEntry) :=
  d.filter (fun p => p.1 ≠ k)

/-- The `master_chunks` list rebuilt by `_rebuild_master_index`: for each
document in dict order, its chunks tagged with `file_id`, document name and
local index. -/
def rebuildChunks (d : List (String × DocEntry)) : List MasterChunk :=
  d.flatMap (fun p => p.2.chunks.enum.map (fun ic => ⟨ic.2, p.1, p.2.name, ic.1⟩))

/-- The parallel `chunk_to_doc_mapping` table. -/
def rebuildMapping (d : List (String × DocEntry)) : List (String × Nat) :=
  d.flatMap (fun p => p.2.chunks.enum.map (fun ic => (p.1, ic.1)))

/-- `MultiDocumentService._rebuild_master_index`: with an empty collection the
master index is cleared; otherwise `master_chunks`, `chunk_to_doc_mapping`
and the master faiss index (modelled by the concatenated embedding rows it
was built from) are recomputed from the current document set. -/
def rebuildMasterIndex (s : MDState) : MDState :=
  if s.document_indices.isEmpty then
    { s with master_index := none, master_chunks := [], chunk_to_doc_mapping := [] }
  else
    { s with
      master_index := some (s.document_indices.flatMap (fun p => p.2.embeddings)),
      master_chunks := rebuildChunks s.document_indices,
      chunk_to_doc_mapping := rebuildMapping s.document_indices }

/-- `MultiDocumentService.add_document(file_id, chunks, metadata)`.  The
outcome of the external `create_embeddings(chunks)` call is the argument
`embedResult` (`none` = it raised, caught by the handler, which returns
`False` before any state is touched); `norm` abstracts `faiss.normalize_L2`.
On success the normalized embeddings are stored and the master index is
rebuilt. -/
def add_document (norm : List Vec → List Vec) (s : MDState) (file_id : String)
    (chunks : List String) (name : String) (embedResult : Option (List Vec)) :
    MDState × Bool :=
  match embedResult with
  | none => (s, false)
  | some embs =>
    let embs := norm embs
    let s := { s with
      document_indices := dictInsert file_id ⟨chunks, embs, name⟩ s.document_indices }
    (rebuildMasterIndex s, true)

/-- `MultiDocumentService.remove_document(file_id)`. -/
def remove_document (s : MDState) (file_id : String) : MDState × Bool :=
  if s.document_indices.any (fun p => p.1 = file_id) then
    (rebuildMasterIndex { s with document_indices := dictRemove file_id s.document_indices },
     true)
  else (s, false)

/-- One result dict of `search_across_documents`. -/
structure SearchResult where
  text : String
  score : Rat
  file_id : String
  document_name : String
  chunk_id : Nat
  preview : String
deriving DecidableEq

/-- The result dict built for a master chunk: includes the 200-character
preview rule. -/
def mkSearchResult (cd : MasterChunk) (score : Rat) : SearchResult :=
  ⟨cd.text, score, cd.file_id, cd.document_name, cd.local_chunk_id,
   if 200 < cd.text.length then pyTake cd.text 200 ++ "..." else cd.text⟩

/-- The `continue` condition `if file_ids and file_id not in file_ids`: the
filter only applies when the optional list is present and non-empty. -/
def skipByFilter (file_ids : Option (List String)) (fid : String) : Bool :=
  match file_ids with
  | none => false
  | some l => !l.isEmpty && !l.contains fid

/-- The result-collection loop of `search_across_documents`: walk the
`(score, idx)` rows, stop once `need` results are collected, keep rows whose
index is in range for `master_chunks`, and apply the document filter. -/
def collectResults (mcs : List MasterChunk) (file_ids : Option (List String)) :
    List (Rat × Int) → Nat → List SearchResult
  | [], _ => []
  | row :: rest, need =>
    if need = 0 then []
    else if 0 ≤ row.2 then
      match mcs.get? row.2.toNat with
      | some cd =>
        if skipByFilter file_ids cd.file_id then collectResults mcs file_ids rest need
        else mkSearchResult cd row.1 :: collectResults mcs file_ids rest (need - 1)
      | none => collectResults mcs file_ids rest need
    else collectResults mcs file_ids rest need

/-- The external collaborators used by `search_across_documents`: the query
embedding call (`none` = it raised), query normalization, and the master
faiss index search over the vectors the index was built from. -/
structure SearchEnv where
  embedQuery : String → Option Vec
  normQuery : Vec → Vec
  masterSearch : List Vec → Vec → Nat → List (Rat × Int)

/-- `MultiDocumentService.search_across_documents(query, k_total, file_ids)`.
The surrounding `try`/`except` returns `[]` on any exception, which in this
model is the failure of the query-embedding call; all other paths are total. -/
def search_across_documents (env : SearchEnv) (s : MDState) (query : String)
    (k_total : Nat) (file_ids : Option (List String)) : List SearchResult :=
  match s.master_index with
  | none => []
  | some mvecs =>
    if s.master_chunks.isEmpty then []
    else
      match env.embedQuery query with
      | none => []
      | some qe =>
        let qv := env.normQuery qe
        let rows := env.masterSearch mvecs qv (min (k_total * 2) s.master_chunks.length)
        collectResults s.master_chunks file_ids rows k_total

/-- One result dict of `get_document_similarities`. -/
structure SimEntry where
  file_id : String
  document_name : String
  similarity_score : Rat
  chunks_count : Nat
deriving DecidableEq

/-- Stable insertion into a score-descending list: the new element goes in
front of the first element whose key is not larger.  Used to model Python's
stable `list.sort(key=..., reverse=True)`. -/
def insertDesc (key : α → Rat) (x : α) : List α → List α
  | [] => [x]
  | y :: ys => if key y ≤ key x then x :: y :: ys else y :: insertDesc key x ys

/-- Stable descending sort by key (extensionally equal to Python's stable
`sort(key=..., reverse=True)`). -/
def sortDesc (key : α → Rat) : List α → List α
  | [] => []
  | x :: xs => insertDesc key x (sortDesc key xs)

/-- `MultiDocumentService.get_document_similarities(file_id, k)`.  The numpy
centroid/cosine computation
`np.dot(mean(a), mean(b)) / (norm(mean(a)) * norm(mean(b)))` is the external
numeric step, abstracted as `sim` on the two stored embedding matrices. -/
def get_document_similarities (sim : List Vec → List Vec → Rat) (s : MDState)
    (file_id : String) (k : Nat) : List SimEntry :=
  match s.document_indices.find? (fun p => p.1 = file_id) with
  | none => []
  | some target =>
    let sims := (s.document_indices.filter (fun p => p.1 ≠ file_id)).map (fun p =>
      (⟨p.1, p.2.name, sim target.2.embeddings p.2.embeddings,
        p.2.chunks.length⟩ : SimEntry))
    (sortDesc (fun e => e.similarity_score) sims).take k

/-- A settled call history against the collection: each `add` records the
outcome of its embedding call (`none` = the embedding service raised). -/
inductive Op where
  | add (file_id : String) (chunks : List String) (name : String)
      (embedResult : Option (List Vec))
  | remove (file_id : String)

/-- Apply one call. -/
def applyOp (norm : List Vec → List Vec) (s : MDState) : Op → MDState
  | .add fid chunks name er => (add_document norm s fid chunks name er).1
  | .remove fid => (remove_document s fid).1

/-- Apply a call sequence to the freshly initialized service. -/
def applyOps (norm : List Vec → List Vec) (ops : List Op) : MDState :=
  ops.foldl (applyOp norm) initState

/-! ## Claims -/

/-- C2: if `add_document` fails because the embedding call throws, the
collection state is exactly as before the call — the document map gains no
entry (count unchanged), the master index and attribution table are not
rebuilt or altered, and `document_similarity` results for every document are
unchanged; the call returns `False` rather than raising.  (In the embedding,
`embedResult = none` is the embedding call raising, and the handler returns
before any field of the state is assigned.) -/
theorem add_document_embed_failure_atomic (norm : List Vec → List Vec)
    (s : MDState) (fid : String) (chunks : List String) (name : String) :
    add_document norm s fid chunks name none = (s, false) ∧
    (add_document norm s fid chunks name none).1.document_indices.length
      = s.document_indices.length ∧
    (add_document norm s fid chunks name none).1.master_chunks = s.master_chunks ∧
    (add_document norm s fid chunks name none).1.master_index = s.master_index ∧
    ∀ (sim : List Vec → List Vec → Rat) (fid2 : String) (k : Nat),
      get_document_similarities sim (add_document norm s fid chunks name none).1 fid2 k
        = get_document_similarities sim s fid2 k :=
  ⟨rfl, rfl, rfl, rfl, fun _ _ _ => rfl⟩

/-- C7 (code bug): the code never validates `overlap` against `chunk_size`.
With `chunk_size = 2, overlap = 3` the range step is negative, the Python
loop body never runs and `chunk_text` silently returns an empty chunk list on
the four-word text `"a b c d"`; with `overlap = chunk_size = 2` a short text
chunks normally, so the misconfiguration is not surfaced at construction or
at first use. -/
theorem chunk_text_overlap_not_validated :
    chunk_text 2 3 "a b c d" = Except.ok [] ∧
    chunk_text 2 2 "a b" = Except.ok ["a b"] :=
  ⟨rfl, rfl⟩

/-- C8: `classify_query_type` is the deterministic first-match
keyword-membership classifier over the lower-cased query in the fixed
precedence order summary, explanation, process, reasoning, temporal, entity,
comparison, else general (it agrees everywhere with the first-match scan of
that ordered category table), and the query
"why does the summary explain this" classifies as `"summary"`. -/
theorem classify_query_type_precedence :
    (∀ q, classify_query_type q = specClassify q) ∧
    classify_query_type "why does the summary explain this" = "summary" :=
  ⟨fun _ => rfl, by decide⟩

/-- C10: `search_across_documents` never raises: an internal exception — here
the failure of the query-embedding call — is caught and the empty list is
returned, which is exactly what the valid empty-collection state returns, so
the caller cannot distinguish an internal failure from "nothing to search". -/
theorem search_across_swallows_failure :
    (∀ (normQ : Vec → Vec) (ms : List Vec → Vec → Nat → List (Rat × Int))
       (s : MDState) (q : String) (k : Nat) (f : Option (List String)),
       search_across_documents ⟨fun _ => none, normQ, ms⟩ s q k f = []) ∧
    (∀ (env : SearchEnv) (q : String) (k : Nat) (f : Option (List String)),
       search_across_documents env initState q k f = []) := by
  constructor
  · intro normQ ms s q k f
    unfold search_across_documents
    cases s.master_index with
    | none => rfl
    | some mvecs =>
      by_cases h : s.master_chunks.isEmpty <;> simp [h]
  · intro env q k f
    rfl

/-- Every chunk passed to `fallbackSections` appears verbatim in its output,
immediately after its formatted relevance percentage. -/
theorem fallbackSections_mem (fmt1 : Rat → String) :
    ∀ (l : List (String × Rat)) (i : Nat) (tc : String × Rat), tc ∈ l →
      ∃ pre post, fallbackSections fmt1 i l
        = pre ++ (fmt1 (tc.2 * 100) ++ "%)\n" ++ tc.1 ++ "\n\n") ++ post := by
  intro l
  induction l with
  | nil => intro i tc h; exact absurd h (List.not_mem_nil tc)
  | cons hd rest ih =>
    intro i tc h
    rcases List.mem_cons.mp h with heq | hmem
    · subst heq
      refine ⟨"**Section " ++ toString (i + 1) ++ "** (Relevance: ",
        fallbackSections fmt1 (i + 1) rest, ?_⟩
      simp [fallbackSections, String.append_assoc]
    · obtain ⟨pre, post, hp⟩ := ih (i + 1) tc hmem
      refine ⟨"**Section " ++ toString (i + 1) ++ "** (Relevance: "
          ++ fmt1 (hd.2 * 100) ++ "%)\n" ++ hd.1 ++ "\n\n" ++ pre, post, ?_⟩
      simp [fallbackSections, hp, String.append_assoc]

/-- C5: if the synthesis provider always fails, `generate_answer` never
raises (it is total by construction) and, for a non-empty chunk list, returns
a `provider = "fallback"` result whose answer text contains, verbatim, the
text of each of the top 3 context chunks immediately preceded by its
formatted relevance percentage. -/
theorem generate_answer_fallback_on_failure
    (provider : String → Except String String)
    (hfail : ∀ p, ∃ e, provider p = Except.error e)
    (fmt2 fmt1 : Rat → String) (query document_name : String)
    (context_chunks : List (String × Rat)) (hne : context_chunks ≠ []) :
    (generate_answer provider fmt2 fmt1 query context_chunks document_name).provider
      = "fallback" ∧
    ∀ tc ∈ context_chunks.take 3, ∃ pre post,
      (generate_answer provider fmt2 fmt1 query context_chunks document_name).answer
        = pre ++ (fmt1 (tc.2 * 100) ++ "%)\n" ++ tc.1 ++ "\n\n") ++ post := by
  obtain ⟨e, he⟩ := hfail (build_prompt query (build_context fmt2 context_chunks)
    document_name)
  have hg : generate_answer provider fmt2 fmt1 query context_chunks document_name
      = fallback_answer fmt1 query context_chunks := by
    unfold generate_answer
    rw [he]
  rw [hg]
  constructor
  · rfl
  · intro tc htc
    obtain ⟨pre, post, hp⟩ := fallbackSections_mem fmt1 (context_chunks.take 3) 0 tc htc
    refine ⟨"I encountered an issue generating a response, but here are the most relevant sections from the document for your question '"
        ++ query ++ "':\n\n" ++ pre, post, ?_⟩
    have hie : context_chunks.isEmpty = false := by
      cases context_chunks with
      | nil => exact absurd rfl hne
      | cons a l => rfl
    simp [fallback_answer, hie, hp, String.append_assoc]

/-- C5 witness: a concrete always-failing provider and a one-chunk context,
instantiating `generate_answer_fallback_on_failure`. -/
theorem generate_answer_fallback_witness :
    (∀ p, ∃ e, (fun (_ : String) => (Except.error "api down" : Except String String)) p
      = Except.error e) ∧
    ([("the one chunk", (1 : Rat))] ≠ []) ∧
    ((generate_answer (fun _ => Except.error "api down") (fun _ => "1.00")
        (fun _ => "100.0") "q" [("the one chunk", 1)] "doc.pdf").provider
      = "fallback" ∧
    ∀ tc ∈ [("the one chunk", (1 : Rat))].take 3, ∃ pre post,
      (generate_answer (fun _ => Except.error "api down") (fun _ => "1.00")
          (fun _ => "100.0") "q" [("the one chunk", 1)] "doc.pdf").answer
        = pre ++ ((fun (_ : Rat) => "100.0") (tc.2 * 100) ++ "%)\n" ++ tc.1 ++ "\n\n")
          ++ post) :=
  ⟨fun _ => ⟨"api down", rfl⟩, by simp,
   generate_answer_fallback_on_failure (fun _ => Except.error "api down")
     (fun _ => ⟨"api down", rfl⟩) (fun _ => "1.00") (fun _ => "100.0") "q" "doc.pdf"
     [("the one chunk", 1)] (by simp)⟩

/-- C3 counterexample: a readable `.index` artifact next to an unreadable
`.chunks` artifact makes `load_index` return `False` while resetting the
in-memory state to empty, destroying the caller's prior state (prior chunks
`["old chunk"]`, a loaded index, `index_loaded = True`). -/
theorem load_index_unreadable_clobbers :
    load_index (⟨FileState.ok 7, FileState.unreadable, FileState.absent⟩ : FS Nat)
        ⟨["old chunk"], some 7, true⟩
      = (⟨[], none, false⟩, false) ∧
    (⟨[], none, false⟩ : EmbState Nat) ≠ ⟨["old chunk"], some 7, true⟩ :=
  ⟨rfl, by decide⟩

/-- C3 amended: when a required artifact (`.index` or `.chunks`) is missing,
`load_index` fails by returning `False` (not a distinct CorruptIndex error)
and leaves the prior in-memory state untouched; but when both required
artifacts exist and any artifact (even the optional `.meta`) is unreadable,
the `except` handler resets the state to empty — index `None`, chunks `[]`,
flag `False` — overwriting the prior state. -/
theorem load_index_failure_behaviour (ι : Type) (fs : FS ι) (s : EmbState ι) :
    (fs.indexFile.toExists = false ∨ fs.chunksFile.toExists = false →
      load_index fs s = (s, false)) ∧
    (fs.indexFile.toExists = true → fs.chunksFile.toExists = true →
      (fs.indexFile.toUnreadable = true ∨ fs.chunksFile.toUnreadable = true ∨
        fs.metaFile.toUnreadable = true) →
      load_index fs s = (clearedState ι, false)) := by
  obtain ⟨fi, fc, fm⟩ := fs
  cases fi <;> cases fc <;> cases fm <;>
    simp [load_index, FileState.toExists, FileState.toUnreadable, clearedState]

/-- C3 witness: both failure modes of `load_index_failure_behaviour` at
concrete inputs — a missing `.chunks` artifact leaves the state alone, an
unreadable `.chunks` artifact clears it. -/
theorem load_index_failure_witness :
    load_index (⟨FileState.ok 7, FileState.absent, FileState.absent⟩ : FS Nat)
        ⟨["old chunk"], some 7, true⟩
      = (⟨["old chunk"], some 7, true⟩, false) ∧
    load_index (⟨FileState.ok 7, FileState.unreadable, FileState.ok ()⟩ : FS Nat)
        ⟨["old chunk"], some 7, true⟩
      = (clearedState Nat, false) :=
  ⟨(load_index_failure_behaviour Nat ⟨FileState.ok 7, FileState.absent,
      FileState.absent⟩ ⟨["old chunk"], some 7, true⟩).1 (by decide),
   (load_index_failure_behaviour Nat ⟨FileState.ok 7, FileState.unreadable,
      FileState.ok ()⟩ ⟨["old chunk"], some 7, true⟩).2 (by decide) (by decide)
     (by decide)⟩

/-- Membership through `insertDesc`. -/
theorem mem_insertDesc (key : α → Rat) (x a : α) :
    ∀ l : List α, a ∈ insertDesc key x l ↔ a = x ∨ a ∈ l := by
  intro l
  induction l with
  | nil => simp [insertDesc]
  | cons y ys ih =>
    by_cases h : key y ≤ key x
    · simp [insertDesc, h]
    · simp only [insertDesc, if_neg h, List.mem_cons, ih]
      tauto

/-- `insertDesc` preserves the score-descending pairwise order. -/
theorem pairwise_insertDesc (key : α → Rat) (x : α) :
    ∀ l : List α, l.Pairwise (fun a b => key b ≤ key a) →
      (insertDesc key x l).Pairwise (fun a b => key b ≤ key a) := by
  intro l
  induction l with
  | nil => intro _; simp [insertDesc]
  | cons y ys ih =>
    intro h
    rw [List.pairwise_cons] at h
    by_cases hle : key y ≤ key x
    · rw [insertDesc, if_pos hle, List.pairwise_cons]
      refine ⟨?_, List.pairwise_cons.mpr h⟩
      intro b hb
      rcases List.mem_cons.mp hb with hb | hb
      · exact hb ▸ hle
      · exact le_trans (h.1 b hb) hle
    · rw [insertDesc, if_neg hle, List.pairwise_cons]
      refine ⟨?_, ih h.2⟩
      intro b hb
      rcases (mem_insertDesc key x b ys).mp hb with hb | hb
      · exact hb ▸ le_of_lt (lt_of_not_le hle)
      · exact h.1 b hb

/-- `sortDesc` sorts score-descending. -/
theorem pairwise_sortDesc (key : α → Rat) :
    ∀ l : List α, (sortDesc key l).Pairwise (fun a b => key b ≤ key a) := by
  intro l
  induction l with
  | nil => simp [sortDesc]
  | cons x xs ih => exact pairwise_insertDesc key x (sortDesc key xs) ih

/-- `sortDesc` permutes, hence preserves membership. -/
theorem mem_sortDesc (key : α → Rat) (a : α) :
    ∀ l : List α, a ∈ sortDesc key l ↔ a ∈ l := by
  intro l
  induction l with
  | nil => simp [sortDesc]
  | cons x xs ih =>
    rw [sortDesc, mem_insertDesc key x a (sortDesc key xs), ih, List.mem_cons]

/-- C9 counterexample: on a collection holding the single document `"doc1"`,
calling `get_document_similarities` with the absent id `"missing"` yields the
empty list — the DocumentNotFound condition is collapsed into an empty
result, not reported as a distinct error (the operation has no error channel
at all). -/
theorem get_document_similarities_absent_is_empty :
    List.find? (fun p => p.1 = "missing")
      (MDState.document_indices ⟨[("doc1", ⟨["c"], [[(1 : Rat)]], "one.pdf"⟩)],
        some [[(1 : Rat)]], [⟨"c", "doc1", "one.pdf", 0⟩], [("doc1", 0)]⟩) = none ∧
    get_document_similarities (fun _ _ => 0)
      ⟨[("doc1", ⟨["c"], [[(1 : Rat)]], "one.pdf"⟩)], some [[(1 : Rat)]],
       [⟨"c", "doc1", "one.pdf", 0⟩], [("doc1", 0)]⟩ "missing" 5 = [] :=
  ⟨rfl, rfl⟩

/-- C9 amended: `get_document_similarities` called with an absent
`document_id` returns the empty list (indistinguishable from a one-document
collection); when the id is present it returns the other documents of the
collection, ranked by the abstracted cosine similarity of mean chunk vectors
in descending order, at most `k` of them, never including the queried
document itself. -/
theorem get_document_similarities_behaviour (sim : List Vec → List Vec → Rat)
    (s : MDState) (fid : String) (k : Nat) :
    (s.document_indices.find? (fun p => p.1 = fid) = none →
      get_document_similarities sim s fid k = []) ∧
    (∀ target, s.document_indices.find? (fun p => p.1 = fid) = some target →
      (get_document_similarities sim s fid k).length ≤ k ∧
      (get_document_similarities sim s fid k).Pairwise
        (fun a b => b.similarity_score ≤ a.similarity_score) ∧
      ∀ e ∈ get_document_similarities sim s fid k,
        e.file_id ≠ fid ∧ ∃ p ∈ s.document_indices,
          e.file_id = p.1 ∧ e.document_name = p.2.name ∧
          e.chunks_count = p.2.chunks.length) := by
  constructor
  · intro hnone
    unfold get_document_similarities
    rw [hnone]
  · intro target htarget
    unfold get_document_similarities
    rw [htarget]
    refine ⟨?_, ?_, ?_⟩
    · simp [List.length_take_le]
    · exact (pairwise_sortDesc _ _).sublist (List.take_sublist k _)
    · intro e he
      have hmem := (mem_sortDesc (fun e => e.similarity_score) e _).mp
        (List.take_subset k _ he)
      rw [List.mem_map] at hmem
      obtain ⟨p, hp, hpe⟩ := hmem
      have hpf := List.mem_filter.mp hp
      subst hpe
      refine ⟨by simpa using hpf.2, p, hpf.1, rfl, rfl, rfl⟩

/-- C9 witness: a two-document collection, querying similarities for present
`"doc1"` via `get_document_similarities_behaviour`. -/
theorem get_document_similarities_witness :
    (List.find? (fun p => p.1 = "doc1")
      (MDState.document_indices ⟨[("doc1", ⟨["c"], [[(1 : Rat)]], "one.pdf"⟩),
        ("doc2", ⟨["d"], [[(2 : Rat)]], "two.pdf"⟩)], none, [], []⟩)
        = some ("doc1", ⟨["c"], [[(1 : Rat)]], "one.pdf"⟩)) ∧
    ((get_document_similarities (fun _ _ => 0)
        ⟨[("doc1", ⟨["c"], [[(1 : Rat)]], "one.pdf"⟩),
          ("doc2", ⟨["d"], [[(2 : Rat)]], "two.pdf"⟩)], none, [], []⟩ "doc1" 5).length ≤ 5 ∧
      (get_document_similarities (fun _ _ => 0)
        ⟨[("doc1", ⟨["c"], [[(1 : Rat)]], "one.pdf"⟩),
          ("doc2", ⟨["d"], [[(2 : Rat)]], "two.pdf"⟩)], none, [], []⟩ "doc1" 5).Pairwise
        (fun a b => b.similarity_score ≤ a.similarity_score) ∧
      ∀ e ∈ get_document_similarities (fun _ _ => 0)
        ⟨[("doc1", ⟨["c"], [[(1 : Rat)]], "one.pdf"⟩),
          ("doc2", ⟨["d"], [[(2 : Rat)]], "two.pdf"⟩)], none, [], []⟩ "doc1" 5,
        e.file_id ≠ "doc1" ∧ ∃ p ∈ (⟨[("doc1", ⟨["c"], [[(1 : Rat)]], "one.pdf"⟩),
          ("doc2", ⟨["d"], [[(2 : Rat)]], "two.pdf"⟩)], none, [], []⟩ : MDState).document_indices,
          e.file_id = p.1 ∧ e.document_name = p.2.name ∧
          e.chunks_count = p.2.chunks.length) :=
  ⟨rfl,
   (get_document_similarities_behaviour (fun _ _ => 0)
     ⟨[("doc1", ⟨["c"], [[(1 : Rat)]], "one.pdf"⟩),
       ("doc2", ⟨["d"], [[(2 : Rat)]], "two.pdf"⟩)], none, [], []⟩ "doc1" 5).2
     ("doc1", ⟨["c"], [[(1 : Rat)]], "one.pdf"⟩) rfl⟩

/-- `filterMap` loses nothing when the function is defined on every element. -/
theorem length_filterMap_of_isSome (f : α → Option β) :
    ∀ l : List α, (∀ a ∈ l, (f a).isSome = true) →
      (l.filterMap f).length = l.length := by
  intro l
  induction l with
  | nil => intro _; rfl
  | cons x xs ih =>
    intro h
    obtain ⟨b, hb⟩ := Option.isSome_iff_exists.mp (h x (List.mem_cons_self x xs))
    rw [List.filterMap_cons, hb, List.length_cons, List.length_cons,
      ih (fun a ha => h a (List.mem_cons_of_mem x ha))]

/-- C6: on a built and loaded index whose vector count matches the chunk
list, with a requested `k` strictly greater than the number of chunks,
`search_similar` clamps `k` to the chunk count before querying, and — under
the faiss contract that the (clamped) query returns exactly that many rows
with in-range positions — returns exactly `chunks.length` results: none lost
to the in-range filter, none added beyond the chunk count. -/
theorem search_similar_clamps_k (embed : String → Option (List Rat))
    (s : EmbState FaissIP) (ix : FaissIP) (query : String) (k : Nat)
    (qv : List Rat)
    (hix : s.index = some ix) (hloaded : s.index_loaded = true)
    (hemb : embed query = some qv) (hk : s.chunks.length < k)
    (hrows : (ix.searchFn qv s.chunks.length).length = s.chunks.length)
    (hvalid : ∀ p ∈ ix.searchFn qv s.chunks.length,
      0 ≤ p.2 ∧ p.2.toNat < s.chunks.length) :
    ∃ rs, search_similar embed s query k = Except.ok rs ∧
      rs.length = s.chunks.length := by
  refine ⟨(ix.searchFn qv s.chunks.length).filterMap (fun p =>
      if 0 ≤ p.2 then (s.chunks.get? p.2.toNat).map (fun c => (c, p.1)) else none),
    ?_, ?_⟩
  · simp only [search_similar, hix, hloaded, hemb, Bool.true_eq_false, if_false,
      if_pos hk]
  · rw [length_filterMap_of_isSome _ _ ?_, hrows]
    intro p hp
    obtain ⟨hnn, hlt⟩ := hvalid p hp
    rw [if_pos hnn]
    obtain ⟨c, hc⟩ := Option.isSome_iff_exists.mp
      ((List.get?_eq_get hlt).symm ▸ Option.isSome_some)
    rw [hc]
    rfl

/-- C6 witness: a two-chunk index whose faiss model returns the identity
ranking, queried with `k = 5`, via `search_similar_clamps_k`. -/
theorem search_similar_clamps_k_witness :
    ∃ rs, search_similar (fun _ => some [(1 : Rat)])
        ⟨["chunk a", "chunk b"],
         some ⟨2, fun _ n => (List.range n).map (fun i => ((1 : Rat), Int.ofNat i))⟩,
         true⟩ "query" 5 = Except.ok rs ∧
      rs.length = (["chunk a", "chunk b"] : List String).length :=
  search_similar_clamps_k (fun _ => some [(1 : Rat)])
    ⟨["chunk a", "chunk b"],
     some ⟨2, fun _ n => (List.range n).map (fun i => ((1 : Rat), Int.ofNat i))⟩,
     true⟩
    ⟨2, fun _ n => (List.range n).map (fun i => ((1 : Rat), Int.ofNat i))⟩
    "query" 5 [(1 : Rat)] rfl rfl rfl (by decide) (by decide) (by decide)

/-- Loop coverage for `chunkLoop`: with positive step at most `cs` and enough
fuel, every word position from `i0` on is inside some scanned window, and any
scanned window whose stripped text exceeds 50 characters is emitted. -/
theorem chunkLoop_covers (words : List String) (cs step : Nat)
    (hstep : 0 < step) (hsc : step ≤ cs) :
    ∀ (fuel i0 j : Nat), i0 ≤ j → j < words.length →
      words.length ≤ i0 + fuel * step →
      ∃ i, i0 ≤ i ∧ i ≤ j ∧ j < i + cs ∧
        (50 < (pyStrip (windowText words cs i)).length →
          pyStrip (windowText words cs i) ∈ chunkLoop words cs step fuel i0) := by
  intro fuel
  induction fuel with
  | zero => intro i0 j hij hj hfuel; omega
  | succ fuel ih =>
    intro i0 j hij hj hfuel
    by_cases hwin : j < i0 + cs
    · refine ⟨i0, le_refl i0, hij, hwin, ?_⟩
      intro hlong
      rw [chunkLoop]
      simp only [if_pos hlong]
      by_cases hbreak : words.length ≤ i0 + cs
      · rw [if_pos hbreak]
        exact List.mem_singleton.mpr rfl
      · rw [if_neg hbreak]
        exact List.mem_append_left _ (List.mem_singleton.mpr rfl)
    · have hbreak : ¬ words.length ≤ i0 + cs := by omega
      obtain ⟨i, hi0, hijle, hjw, hmem⟩ := ih (i0 + step) j (by omega) hj
        (by rw [Nat.succ_mul] at hfuel; omega)
      refine ⟨i, by omega, hijle, hjw, ?_⟩
      intro hlong
      rw [chunkLoop]
      simp only [if_neg hbreak]
      by_cases hkeep : 50 < (pyStrip (windowText words cs i0)).length
      · rw [if_pos hkeep]
        exact List.mem_append_right _ (hmem hlong)
      · rw [if_neg hkeep]
        exact List.mem_append_right _ (hmem hlong)

/-- C4 amended: for every non-blank text whose word count is strictly greater
than `chunk_size` (with `overlap < chunk_size`), `chunk_text` succeeds, every
word of the text lies inside at least one scanned window (which preserves the
original word order), and every scanned window whose stripped text exceeds 50
characters appears as a produced chunk — so a word can be permanently dropped
only by the ≤50-character noise-discard rule, which can fire on any window,
not only on the trailing short remainder. -/
theorem chunk_text_coverage (cs ov : Nat) (text : String) (hov : ov < cs)
    (hblank : pyStrip text ≠ "") (hwc : cs < (pyWords text).length) :
    ∃ chunks, chunk_text cs ov text = Except.ok chunks ∧
      ∀ j, j < (pyWords text).length →
        ∃ i, i ≤ j ∧ j < i + cs ∧
          (50 < (pyStrip (windowText (pyWords text) cs i)).length →
            pyStrip (windowText (pyWords text) cs i) ∈ chunks) := by
  refine ⟨chunkLoop (pyWords text) cs (cs - ov) (pyWords text).length 0, ?_, ?_⟩
  · unfold chunk_text
    rw [if_neg (by omega), if_pos hov]
  · intro j hj
    obtain ⟨i, _, hile, hjw, hmem⟩ := chunkLoop_covers (pyWords text) cs (cs - ov)
      (by omega) (by omega) (pyWords text).length 0 j (Nat.zero_le j) hj
      (by simpa using Nat.le_mul_of_pos_right (pyWords text).length (by omega))
    exact ⟨i, hile, hjw, hmem⟩

/-- C4 witness: `chunk_text_coverage` instantiated on a three-word text with
`chunk_size = 2`, `overlap = 0`. -/
theorem chunk_text_coverage_witness :
    0 < 2 ∧ pyStrip "a b c" ≠ "" ∧ 2 < (pyWords "a b c").length ∧
    (∃ chunks, chunk_text 2 0 "a b c" = Except.ok chunks ∧
      ∀ j, j < (pyWords "a b c").length →
        ∃ i, i ≤ j ∧ j < i + 2 ∧
          (50 < (pyStrip (windowText (pyWords "a b c") 2 i)).length →
            pyStrip (windowText (pyWords "a b c") 2 i) ∈ chunks)) :=
  ⟨by decide, by decide, by decide,
   chunk_text_coverage 2 0 "a b c" (by decide) (by decide) (by decide)⟩

/-- C4 counterexample to the claim as stated: on the non-blank text
`"a b c"` with `chunk_size = 2 < word count = 3` and `overlap = 0`, the
produced chunk list is empty, so the first word `"a"` appears in no chunk;
yet the only window containing it is the initial window starting at 0, which
is not the trailing window (the next window start, 2, is still inside the
word list), so the word is dropped by the ≤50-character rule firing on a
non-final window — not by the trailing short-remainder rule. -/
theorem chunk_text_drops_nonfinal_words :
    pyStrip "a b c" ≠ "" ∧ 2 < (pyWords "a b c").length ∧
    chunk_text 2 0 "a b c" = Except.ok [] ∧
    0 + 2 < (pyWords "a b c").length :=
  ⟨by decide, by decide, rfl, by decide⟩

/-- Every rebuilt master chunk is attributed to a document of the dict it was
rebuilt from, and carries that document's chunk text at its local index. -/
theorem rebuildChunks_mem (d : List (String × DocEntry)) (mc : MasterChunk)
    (h : mc ∈ rebuildChunks d) :
    ∃ p ∈ d, mc.file_id = p.1 ∧ p.2.chunks.get? mc.local_chunk_id = some mc.text := by
  unfold rebuildChunks at h
  rw [List.mem_flatMap] at h
  obtain ⟨p, hp, hmc⟩ := h
  rw [List.mem_map] at hmc
  obtain ⟨ic, hic, heq⟩ := hmc
  obtain ⟨hlt, hval⟩ := List.mem_enum hic
  refine ⟨p, hp, ?_, ?_⟩
  · rw [← heq]
  · rw [← heq]
    simp only [List.get?_eq_get hlt, hval]
    rfl

/-- The master-index consistency invariant: `master_chunks` is exactly the
rebuild of the current document dict (the master index is a pure function of
the document set). -/
def MasterOk (s : MDState) : Prop :=
  s.master_chunks = rebuildChunks s.document_indices

/-- `_rebuild_master_index` establishes the invariant on any state. -/
theorem masterOk_rebuildMasterIndex (s : MDState) :
    MasterOk (rebuildMasterIndex s) := by
  unfold MasterOk rebuildMasterIndex
  by_cases h : s.document_indices.isEmpty
  · rw [if_pos h]
    rw [List.isEmpty_iff] at h
    simp [h, rebuildChunks]
  · rw [if_neg h]

/-- Both outcomes of `add_document` preserve the invariant. -/
theorem masterOk_add_document (norm : List Vec → List Vec) (s : MDState)
    (fid : String) (chunks : List String) (name : String)
    (er : Option (List Vec)) (h : MasterOk s) :
    MasterOk (add_document norm s fid chunks name er).1 := by
  cases er with
  | none => exact h
  | some embs => exact masterOk_rebuildMasterIndex _

/-- Both outcomes of `remove_document` preserve the invariant. -/
theorem masterOk_remove_document (s : MDState) (fid : String) (h : MasterOk s) :
    MasterOk (remove_document s fid).1 := by
  unfold remove_document
  by_cases hmem : s.document_indices.any (fun p => p.1 = fid)
  · rw [if_pos hmem]
    exact masterOk_rebuildMasterIndex _
  · rw [if_neg hmem]
    exact h

/-- The invariant holds after any settled call sequence from initialization. -/
theorem masterOk_applyOps (norm : List Vec → List Vec) (ops : List Op) :
    MasterOk (applyOps norm ops) := by
  suffices hgen : ∀ s, MasterOk s → MasterOk (ops.foldl (applyOp norm) s) from
    hgen initState rfl
  induction ops with
  | nil => intro s hs; exact hs
  | cons op rest ih =>
    intro s hs
    refine ih (applyOp norm s op) ?_
    cases op with
    | add fid chunks name er => exact masterOk_add_document norm s fid chunks name er hs
    | remove fid => exact masterOk_remove_document s fid hs

/-- Every result the collection loop emits is copied from a master chunk. -/
theorem collectResults_mem (mcs : List MasterChunk)
    (file_ids : Option (List String)) :
    ∀ (rows : List (Rat × Int)) (need : Nat) (r : SearchResult),
      r ∈ collectResults mcs file_ids rows need →
      ∃ cd ∈ mcs, r.file_id = cd.file_id ∧ r.text = cd.text ∧
        r.chunk_id = cd.local_chunk_id := by
  intro rows
  induction rows with
  | nil => intro need r h; exact absurd h (List.not_mem_nil r)
  | cons row rest ih =>
    intro need r h
    rw [collectResults] at h
    by_cases hneed : need = 0
    · rw [if_pos hneed] at h
      exact absurd h (List.not_mem_nil r)
    · rw [if_neg hneed] at h
      by_cases hnn : (0 : Int) ≤ row.2
      · rw [if_pos hnn] at h
        cases hcd : mcs.get? row.2.toNat with
        | none =>
          simp only [hcd] at h
          exact ih need r h
        | some cd =>
          simp only [hcd] at h
          by_cases hskip : skipByFilter file_ids cd.file_id
          · rw [if_pos hskip] at h
            exact ih need r h
          · rw [if_neg hskip] at h
            rcases List.mem_cons.mp h with heq | hmem
            · exact ⟨cd, List.get?_mem hcd, heq ▸ ⟨rfl, rfl, rfl⟩⟩
            · exact ih (need - 1) r hmem
      · rw [if_neg hnn] at h
        exact ih need r h

/-- Every result of `search_across_documents` is copied from a chunk of the
current `master_chunks` table. -/
theorem search_across_mem (env : SearchEnv) (s : MDState) (query : String)
    (k : Nat) (fids : Option (List String)) (r : SearchResult)
    (h : r ∈ search_across_documents env s query k fids) :
    ∃ cd ∈ s.master_chunks, r.file_id = cd.file_id ∧ r.text = cd.text ∧
      r.chunk_id = cd.local_chunk_id := by
  unfold search_across_documents at h
  cases hmi : s.master_index with
  | none =>
    simp only [hmi] at h
    exact absurd h (List.not_mem_nil r)
  | some mvecs =>
    simp only [hmi] at h
    by_cases hemp : s.master_chunks.isEmpty
    · rw [if_pos hemp] at h
      exact absurd h (List.not_mem_nil r)
    · rw [if_neg hemp] at h
      cases hq : env.embedQuery query with
      | none =>
        simp only [hq] at h
        exact absurd h (List.not_mem_nil r)
      | some qe =>
        simp only [hq] at h
        exact collectResults_mem s.master_chunks fids _ k r h

/-- C1: after any settled sequence of `add_document` / `remove_document`
calls starting from the fresh collection, every result returned by
`search_across_documents` is attributed to a document currently present in
`document_indices`, and its text is that document's chunk at the reported
local index — no result carries the file_id or chunk text of a removed
document, because the master index and attribution table are recomputed from
the current document set on every mutation. -/
theorem search_across_attribution (norm : List Vec → List Vec) (env : SearchEnv)
    (ops : List Op) (query : String) (k : Nat) (fids : Option (List String))
    (r : SearchResult)
    (h : r ∈ search_across_documents env (applyOps norm ops) query k fids) :
    ∃ p ∈ (applyOps norm ops).document_indices,
      r.file_id = p.1 ∧ p.2.chunks.get? r.chunk_id = some r.text := by
  obtain ⟨cd, hcd, hfid, htext, hcid⟩ := search_across_mem env _ query k fids r h
  rw [masterOk_applyOps norm ops] at hcd
  obtain ⟨p, hp, hpfid, hptext⟩ := rebuildChunks_mem _ cd hcd
  exact ⟨p, hp, hfid.trans hpfid, by rw [hcid, htext]; exact hptext⟩

/-- C1 witness: one added document and a master search hitting its only
chunk, via `search_across_attribution`. -/
theorem search_across_attribution_witness :
    (⟨"hello chunk", 1, "d1", "doc.pdf", 0, "hello chunk"⟩ : SearchResult)
      ∈ search_across_documents
        ⟨fun _ => some [(1 : Rat)], id, fun _ _ _ => [((1 : Rat), (0 : Int))]⟩
        (applyOps id [Op.add "d1" ["hello chunk"] "doc.pdf" (some [[(1 : Rat)]])])
        "q" 3 none ∧
    ∃ p ∈ (applyOps id
        [Op.add "d1" ["hello chunk"] "doc.pdf" (some [[(1 : Rat)]])]).document_indices,
      (⟨"hello chunk", 1, "d1", "doc.pdf", 0, "hello chunk"⟩ : SearchResult).file_id
        = p.1 ∧
      p.2.chunks.get? (⟨"hello chunk", 1, "d1", "doc.pdf", 0,
        "hello chunk"⟩ : SearchResult).chunk_id = some "hello chunk" :=
  ⟨by decide,
   search_across_attribution id
     ⟨fun _ => some [(1 : Rat)], id, fun _ _ _ => [((1 : Rat), (0 : Int))]⟩
     [Op.add "d1" ["hello chunk"] "doc.pdf" (some [[(1 : Rat)]])] "q" 3 none
     ⟨"hello chunk", 1, "d1", "doc.pdf", 0, "hello chunk"⟩ (by decide)⟩

end DocuQuery
